import Mathlib

/-!
Verification development for the `husky_highlevel_controller` package.

The repository ships only the interface declaration `Algorithm.hpp`; the
method bodies are not part of the source tree. The behaviour of each
operation is therefore modelled from the specification (spec.md) as a
shallow embedding: range samples become an explicit sum type separating
finite readings from non-finite ones, real-valued quantities become
rationals, fallible operations return `Except`, and the C++ output
parameters become returned values, as the specification itself directs.
-/

namespace husky_highlevel_controller

/-- Modelled from the spec: a distance sample of a range scan is either a
finite numeric reading or one of the non-finite float values (NaN, plus or
minus infinity), which are always invalid. -/
inductive RangeValue where
  | nan : RangeValue
  | posInf : RangeValue
  | negInf : RangeValue
  | finite : ℚ → RangeValue
deriving DecidableEq

/-- Modelled from the spec (§3 RangeScan): ordered distance samples with the
shared angular parameters, validity bounds and the reference frame id. -/
structure RangeScan where
  angle_min : ℚ
  angle_increment : ℚ
  range_min : ℚ
  range_max : ℚ
  ranges : List RangeValue
  frame_id : String
deriving DecidableEq

/-- Modelled from the spec (§3 ClosestPoint): index into the originating
scan together with the corresponding distance. -/
structure ClosestPoint where
  index : Nat
  distance : ℚ
deriving DecidableEq

/-- Modelled from the spec (§7 error taxonomy). -/
inductive AlgorithmError where
  | noValidRangeError : AlgorithmError
  | indexOutOfRangeError : AlgorithmError
  | frameLookupError : AlgorithmError
  | staleTransformError : AlgorithmError
deriving DecidableEq

/-- Modelled from the spec (§3 VelocityCommand): the `geometry_msgs::Twist`
content used by the controller, a linear and an angular component. -/
structure Twist where
  linear : ℚ
  angular : ℚ
deriving DecidableEq

/-- Modelled from the spec (§3 Marker): an RGBA colour. -/
structure ColorRGBA where
  r : ℚ
  g : ℚ
  b : ℚ
  a : ℚ
deriving DecidableEq

/-- Modelled from the spec (§3 Marker): position, frame, identifier, colour,
plus the fixed shape/scale convention chosen by the implementer
(a small sphere). -/
structure Marker where
  x : ℚ
  y : ℚ
  frame_id : String
  id : Int
  color : ColorRGBA
  shape_type : Nat
  scale : ℚ
deriving DecidableEq

/-- Modelled from the spec: a three dimensional vector over the rationals
(the idealisation of the double precision values of the source). -/
structure Vec3 where
  x : ℚ
  y : ℚ
  z : ℚ
deriving DecidableEq

/-- Modelled from the spec: a three by three matrix, used both for the
rotational part of a rigid transform and for a pose orientation
("quaternion-or-equivalent" in the spec's words). -/
structure Mat3 where
  m11 : ℚ
  m12 : ℚ
  m13 : ℚ
  m21 : ℚ
  m22 : ℚ
  m23 : ℚ
  m31 : ℚ
  m32 : ℚ
  m33 : ℚ
deriving DecidableEq

/-- Componentwise sum of two vectors. -/
def Vec3.add (u v : Vec3) : Vec3 :=
  ⟨u.x + v.x, u.y + v.y, u.z + v.z⟩

/-- Componentwise negation of a vector. -/
def Vec3.neg (v : Vec3) : Vec3 :=
  ⟨-v.x, -v.y, -v.z⟩

/-- Matrix applied to a vector. -/
def Mat3.mulVec (m : Mat3) (v : Vec3) : Vec3 :=
  ⟨m.m11 * v.x + m.m12 * v.y + m.m13 * v.z,
   m.m21 * v.x + m.m22 * v.y + m.m23 * v.z,
   m.m31 * v.x + m.m32 * v.y + m.m33 * v.z⟩

/-- Matrix product. -/
def Mat3.mul (m n : Mat3) : Mat3 :=
  ⟨m.m11 * n.m11 + m.m12 * n.m21 + m.m13 * n.m31,
   m.m11 * n.m12 + m.m12 * n.m22 + m.m13 * n.m32,
   m.m11 * n.m13 + m.m12 * n.m23 + m.m13 * n.m33,
   m.m21 * n.m11 + m.m22 * n.m21 + m.m23 * n.m31,
   m.m21 * n.m12 + m.m22 * n.m22 + m.m23 * n.m32,
   m.m21 * n.m13 + m.m22 * n.m23 + m.m23 * n.m33,
   m.m31 * n.m11 + m.m32 * n.m21 + m.m33 * n.m31,
   m.m31 * n.m12 + m.m32 * n.m22 + m.m33 * n.m32,
   m.m31 * n.m13 + m.m32 * n.m23 + m.m33 * n.m33⟩

/-- Matrix transpose. -/
def Mat3.transpose (m : Mat3) : Mat3 :=
  ⟨m.m11, m.m21, m.m31, m.m12, m.m22, m.m32, m.m13, m.m23, m.m33⟩

/-- Identity matrix. -/
def Mat3.id : Mat3 :=
  ⟨1, 0, 0, 0, 1, 0, 0, 0, 1⟩

/-- Modelled from the spec (§3 Pose): position, orientation and the frame
the pose is expressed in. -/
structure Pose where
  position : Vec3
  orientation : Mat3
  frame_id : String
deriving DecidableEq

/-- Modelled from the spec (§6): a rigid transform answered by the Frame
Transform Service, a rotation together with a translation. -/
structure RigidTransform where
  rot : Mat3
  trans : Vec3
deriving DecidableEq

/-- Modelled from the spec (§6): the Frame Transform Service answers
`lookupTransform(targetFrame, sourceFrame)` queries, possibly failing.
The query time is omitted: the round-trip property concerns static
transforms only. -/
def FrameService : Type :=
  String → String → Option RigidTransform

/-- Application of a rigid transform to a pose, re-expressing it in the
destination frame: the position is rotated and translated, the orientation
is rotated. -/
def applyRigid (t : RigidTransform) (p : Pose) (dest_frame_id : String) : Pose :=
  { position := Vec3.add (t.rot.mulVec p.position) t.trans,
    orientation := t.rot.mul p.orientation,
    frame_id := dest_frame_id }

/-- Inverse of a rigid transform: transposed rotation, with the translation
rotated back and negated. -/
def RigidTransform.inverse (t : RigidTransform) : RigidTransform :=
  { rot := t.rot.transpose,
    trans := Vec3.neg (t.rot.transpose.mulVec t.trans) }

/-- Validity predicate of the spec (§3, §4.1): a sample participates in the
minimum-distance search exactly when it is a finite reading inside the
closed interval from `range_min` to `range_max`. `ValidAt rmin rmax l k q`
says that position `k` of `l` holds the valid finite reading `q`. -/
abbrev ValidAt (rmin rmax : ℚ) (l : List RangeValue) (k : Nat) (q : ℚ) : Prop :=
  l[k]? = some (RangeValue.finite q) ∧ rmin ≤ q ∧ q ≤ rmax

/-- Numeric value of a sample: `some` for a finite reading, `none` for the
non-finite float values. -/
def sampleValue? : RangeValue → Option ℚ
  | RangeValue.finite q => some q
  | _ => none

/-- Modelled from the spec (§4.1): scan the samples of `l` (which occupy
positions `i, i+1, ...` of the original scan) and return the position and
value of the smallest valid reading, the earliest position winning ties;
`none` when no sample is valid. -/
def minFrom (rmin rmax : ℚ) : Nat → List RangeValue → Option (Nat × ℚ)
  | _, [] => none
  | i, v :: rest =>
    match sampleValue? v with
    | some q =>
      if rmin ≤ q ∧ q ≤ rmax then
        match minFrom rmin rmax (i + 1) rest with
        | none => some (i, q)
        | some (j, m) => if q ≤ m then some (i, q) else some (j, m)
      else minFrom rmin rmax (i + 1) rest
    | none => minFrom rmin rmax (i + 1) rest

/-- Modelled from the spec (§4.1, `findClosest`), the body of
`Algorithm::getMinimalDistance` being absent from the source tree: iterate
all samples, exclude invalid ones, and return the closest point; fail with
`noValidRangeError` when the scan is empty or holds no valid sample. -/
def findClosest (scan : RangeScan) : Except AlgorithmError ClosestPoint :=
  match minFrom scan.range_min scan.range_max 0 scan.ranges with
  | some (i, d) => Except.ok ⟨i, d⟩
  | none => Except.error AlgorithmError.noValidRangeError

/-- Modelled from the spec (§4.2, `windowAround`), the body of
`Algorithm::createLaserScanAroundMD` being absent from the source tree:
keep the samples with indices from `centerIndex - halfWidth` to
`centerIndex + halfWidth`, clipped to the valid index range, recompute
`angle_min`, preserve the other fields; fail with `indexOutOfRangeError`
when `centerIndex` is not a valid index of the source. -/
def windowAround (scan : RangeScan) (centerIndex halfWidth : Int) :
    Except AlgorithmError RangeScan :=
  if centerIndex < 0 ∨ (scan.ranges.length : Int) ≤ centerIndex then
    Except.error AlgorithmError.indexOutOfRangeError
  else
    let start : Int := max 0 (centerIndex - halfWidth)
    let stop : Int := min ((scan.ranges.length : Int) - 1) (centerIndex + halfWidth)
    Except.ok
      { scan with
        angle_min := scan.angle_min + (start : ℚ) * scan.angle_increment,
        ranges := (scan.ranges.drop start.toNat).take (stop - start + 1).toNat }

/-- Modelled from the spec (§4.3, `steer`), the body of
`Algorithm::calculatePRatio` being absent from the source tree: the angular
component becomes `kp * angle`, the linear component is copied unchanged. -/
def steer (old_cmd_vel : Twist) (kp : ℚ) (angle : ℚ) : Twist :=
  { linear := old_cmd_vel.linear, angular := kp * angle }

/-- Modelled from the spec (§4.5, `buildMarker`), the body of
`Algorithm::createMarker` being absent from the source tree: package the
given position, frame, identifier and colour into a marker with the fixed
small-sphere shape/scale convention. -/
def buildMarker (x y : ℚ) (frame_id : String) (marker_id : Int)
    (marker_color : ColorRGBA) : Marker :=
  { x := x, y := y, frame_id := frame_id, id := marker_id,
    color := marker_color, shape_type := 2, scale := 1 / 10 }

/-- Modelled from the spec (§4.4, `transform`), the body of
`Algorithm::transformPose` being absent from the source tree: query the
Frame Transform Service for the transform into `dest_frame_id` and apply
it; fail with `frameLookupError` when the service knows no such
transform. -/
def transform (svc : FrameService) (p : Pose)
    (src_frame_id dest_frame_id : String) : Except AlgorithmError Pose :=
  match svc dest_frame_id src_frame_id with
  | some t => Except.ok (applyRigid t p dest_frame_id)
  | none => Except.error AlgorithmError.frameLookupError

/-- The state of an `Algorithm` object as declared in `Algorithm.hpp`:
a TF2 buffer (modelled as the Frame Transform Service it answers queries
from) and the listener bookkeeping feeding it. -/
structure Algorithm where
  tf_buffer_ : FrameService
  tf_listener_ : List (String × String × RigidTransform)

/-- Member function `Algorithm::getMinimalDistance`, modelled from the spec
(§4.1): the computation reads only the scan argument, never the object
state. -/
def Algorithm.getMinimalDistance (a : Algorithm) (scan : RangeScan) :
    Except AlgorithmError ClosestPoint :=
  findClosest scan

/-- Member function `Algorithm::createLaserScanAroundMD`, modelled from the
spec (§4.2); the C++ output parameter becomes the returned value, and the
`min_val` parameter of the declared signature plays no role in the
specified behaviour. -/
def Algorithm.createLaserScanAroundMD (a : Algorithm) (old_scan : RangeScan)
    (closest_index : Int) (min_val : ℚ) (range_size : Int) :
    Except AlgorithmError RangeScan :=
  windowAround old_scan closest_index range_size

/-- Member function `Algorithm::calculatePRatio`, modelled from the spec
(§4.3); the C++ output parameter becomes the returned value. -/
def Algorithm.calculatePRatio (a : Algorithm) (old_cmd_vel : Twist)
    (kp : ℚ) (angle : ℚ) : Twist :=
  steer old_cmd_vel kp angle

/-- Member function `Algorithm::createMarker`, modelled from the spec
(§4.5). -/
def Algorithm.createMarker (a : Algorithm) (x y : ℚ) (frame_id : String)
    (marker_id : Int) (marker_color : ColorRGBA) : Marker :=
  buildMarker x y frame_id marker_id marker_color

/-- Member function `Algorithm::transformPose`, modelled from the spec
(§4.4) over the signature declared in `Algorithm.hpp`. The declared `dest`
parameter is taken by value, so an implementation can only write into its
own local copy: the pair returned here is the C++ return value together
with that local copy at exit (the transformed pose on success, the copy of
the argument on failure). C++ discards the local copy on return. -/
def Algorithm.transformPose (a : Algorithm) (src : Pose) (dest : Pose)
    (src_frame_id dest_frame_id : String) : Bool × Pose :=
  match transform a.tf_buffer_ src src_frame_id dest_frame_id with
  | Except.ok p => (true, p)
  | Except.error _ => (false, dest)

/-- What a call site of `Algorithm::transformPose` observes: the boolean
return value, and its own `dest` variable afterwards. Because `dest` is a
by-value parameter of the declared signature, the caller's variable is
copied in and never written back. -/
def transformPoseCall (a : Algorithm) (src : Pose) (dest : Pose)
    (src_frame_id dest_frame_id : String) : Bool × Pose :=
  ((a.transformPose src dest src_frame_id dest_frame_id).1, dest)

/-- Example rigid transform of the round-trip development: the rotation
swapping the first two axes, with a nonzero translation. -/
def wTransform : RigidTransform :=
  { rot := ⟨0, 1, 0, 1, 0, 0, 0, 0, 1⟩, trans := ⟨1, 2, 3⟩ }

/-- Example Frame Transform Service holding the static transform
`wTransform` from frame "A" to frame "B", and its inverse the other way. -/
def wService : FrameService :=
  fun target source =>
    if target = "B" ∧ source = "A" then some wTransform
    else if target = "A" ∧ source = "B" then some wTransform.inverse
    else none

/-- Example pose expressed in frame "A". -/
def wPose : Pose :=
  { position := ⟨1, 2, 3⟩, orientation := Mat3.id, frame_id := "A" }

/-- Example scan with a unique closest valid sample and a later tie. -/
def wScanClosest : RangeScan :=
  { angle_min := 0, angle_increment := 1, range_min := 0, range_max := 10,
    ranges := [RangeValue.finite 5, RangeValue.nan, RangeValue.finite 2,
               RangeValue.finite 2, RangeValue.finite 9],
    frame_id := "laser" }

/-- Example ten-sample scan of the windowing development. -/
def wScanTen : RangeScan :=
  { angle_min := 0, angle_increment := 1, range_min := 0, range_max := 20,
    ranges := [RangeValue.finite 10, RangeValue.finite 9, RangeValue.finite 8,
               RangeValue.finite 7, RangeValue.finite 6, RangeValue.finite 5,
               RangeValue.finite 4, RangeValue.finite 3, RangeValue.finite 2,
               RangeValue.finite 1],
    frame_id := "laser" }

/-- The window of `wScanTen` around index 5 with half width 2, as the value
`windowAround` computes. -/
def wWindowTen : RangeScan :=
  match windowAround wScanTen 5 2 with
  | Except.ok out => out
  | Except.error _ => wScanTen

theorem minFrom_nil (rmin rmax : ℚ) (i : Nat) : minFrom rmin rmax i [] = none := rfl

theorem minFrom_cons_none (rmin rmax : ℚ) (i : Nat) (v : RangeValue)
    (rest : List RangeValue) (hsv : sampleValue? v = none) :
    minFrom rmin rmax i (v :: rest) = minFrom rmin rmax (i + 1) rest := by
  simp only [minFrom, hsv]

theorem minFrom_cons_some (rmin rmax : ℚ) (i : Nat) (v : RangeValue)
    (rest : List RangeValue) (q : ℚ) (hsv : sampleValue? v = some q) :
    minFrom rmin rmax i (v :: rest) =
      if rmin ≤ q ∧ q ≤ rmax then
        match minFrom rmin rmax (i + 1) rest with
        | none => some (i, q)
        | some (j, m) => if q ≤ m then some (i, q) else some (j, m)
      else minFrom rmin rmax (i + 1) rest := by
  simp only [minFrom, hsv]

theorem sampleValue?_eq_some (v : RangeValue) (q : ℚ) :
    sampleValue? v = some q ↔ v = RangeValue.finite q := by
  cases v <;> simp [sampleValue?]

theorem validAt_cons (rmin rmax : ℚ) (v : RangeValue) (l : List RangeValue)
    (k : Nat) (q : ℚ) :
    ValidAt rmin rmax (v :: l) k q ↔
      (k = 0 ∧ sampleValue? v = some q ∧ rmin ≤ q ∧ q ≤ rmax) ∨
      (∃ k', k = k' + 1 ∧ ValidAt rmin rmax l k' q) := by
  cases k with
  | zero => simp [ValidAt, sampleValue?_eq_some]
  | succ k =>
    simp only [ValidAt, List.getElem?_cons_succ]
    constructor
    · intro hv
      exact Or.inr ⟨k, rfl, hv⟩
    · rintro (⟨hk, _⟩ | ⟨k', hk, hv⟩)
      · exact absurd hk (Nat.succ_ne_zero k)
      · obtain rfl : k = k' := Nat.succ_injective hk
        exact hv

theorem minFrom_eq_none_iff (rmin rmax : ℚ) (l : List RangeValue) :
    ∀ i : Nat, minFrom rmin rmax i l = none ↔ ∀ k q, ¬ ValidAt rmin rmax l k q := by
  induction l with
  | nil =>
    intro i
    simp [minFrom_nil, ValidAt]
  | cons v rest ih =>
    intro i
    rcases hsv : sampleValue? v with _ | q
    · rw [minFrom_cons_none rmin rmax i v rest hsv, ih (i + 1)]
      constructor
      · intro hall k q hv
        rcases (validAt_cons rmin rmax v rest k q).mp hv with ⟨_, hs, _⟩ | ⟨k', _, hv'⟩
        · rw [hsv] at hs
          exact Option.noConfusion hs
        · exact hall k' q hv'
      · intro hall k q hv
        exact hall (k + 1) q
          ((validAt_cons rmin rmax v rest (k + 1) q).mpr (Or.inr ⟨k, rfl, hv⟩))
    · by_cases hb : rmin ≤ q ∧ q ≤ rmax
      · rw [minFrom_cons_some rmin rmax i v rest q hsv, if_pos hb]
        constructor
        · intro hnone
          exfalso
          rcases htail : minFrom rmin rmax (i + 1) rest with _ | ⟨j, m⟩
          · simp only [htail] at hnone
            exact Option.noConfusion hnone
          · simp only [htail] at hnone
            by_cases hqm : q ≤ m
            · rw [if_pos hqm] at hnone
              exact Option.noConfusion hnone
            · rw [if_neg hqm] at hnone
              exact Option.noConfusion hnone
        · intro hall
          exact absurd
            ((validAt_cons rmin rmax v rest 0 q).mpr (Or.inl ⟨rfl, hsv, hb.1, hb.2⟩))
            (hall 0 q)
      · rw [minFrom_cons_some rmin rmax i v rest q hsv, if_neg hb, ih (i + 1)]
        constructor
        · intro hall k q' hv
          rcases (validAt_cons rmin rmax v rest k q').mp hv with ⟨_, hs, hb1, hb2⟩ | ⟨k', _, hv'⟩
          · rw [hsv] at hs
            obtain rfl := Option.some.inj hs
            exact hb ⟨hb1, hb2⟩
          · exact hall k' q' hv'
        · intro hall k q' hv
          exact hall (k + 1) q'
            ((validAt_cons rmin rmax v rest (k + 1) q').mpr (Or.inr ⟨k, rfl, hv⟩))

theorem minFrom_eq_some (rmin rmax : ℚ) (l : List RangeValue) :
    ∀ (i j : Nat) (d : ℚ),
      minFrom rmin rmax i l = some (j, d) →
      ∃ k, j = i + k ∧ ValidAt rmin rmax l k d ∧
        (∀ k' q, ValidAt rmin rmax l k' q → d ≤ q) ∧
        (∀ k' q, ValidAt rmin rmax l k' q → q = d → k ≤ k') := by
  induction l with
  | nil =>
    intro i j d h
    rw [minFrom_nil] at h
    exact Option.noConfusion h
  | cons v rest ih =>
    intro i j d h
    rcases hsv : sampleValue? v with _ | q
    · rw [minFrom_cons_none rmin rmax i v rest hsv] at h
      obtain ⟨k, hk, hvt, hmin, hties⟩ := ih (i + 1) j d h
      refine ⟨k + 1, by omega,
        (validAt_cons rmin rmax v rest (k + 1) d).mpr (Or.inr ⟨k, rfl, hvt⟩), ?_, ?_⟩
      · intro k' q' hv
        rcases (validAt_cons rmin rmax v rest k' q').mp hv with ⟨_, hs, _, _⟩ | ⟨k'', rfl, hv'⟩
        · rw [hsv] at hs
          exact Option.noConfusion hs
        · exact hmin k'' q' hv'
      · intro k' q' hv hqd
        rcases (validAt_cons rmin rmax v rest k' q').mp hv with ⟨_, hs, _, _⟩ | ⟨k'', rfl, hv'⟩
        · rw [hsv] at hs
          exact Option.noConfusion hs
        · have := hties k'' q' hv' hqd
          omega
    · rw [minFrom_cons_some rmin rmax i v rest q hsv] at h
      by_cases hb : rmin ≤ q ∧ q ≤ rmax
      · rw [if_pos hb] at h
        rcases htail : minFrom rmin rmax (i + 1) rest with _ | ⟨jt, m⟩
        · simp only [htail] at h
          simp only [Option.some.injEq, Prod.mk.injEq] at h
          obtain ⟨rfl, rfl⟩ := h
          refine ⟨0, by omega,
            (validAt_cons rmin rmax v rest 0 q).mpr (Or.inl ⟨rfl, hsv, hb.1, hb.2⟩),
            ?_, fun k' q' _ _ => Nat.zero_le k'⟩
          intro k' q' hv
          rcases (validAt_cons rmin rmax v rest k' q').mp hv with ⟨_, hs, _, _⟩ | ⟨k'', rfl, hv'⟩
          · rw [hsv] at hs
            exact le_of_eq (Option.some.inj hs)
          · exact absurd hv' (((minFrom_eq_none_iff rmin rmax rest) (i + 1)).mp htail k'' q')
        · simp only [htail] at h
          by_cases hqm : q ≤ m
          · rw [if_pos hqm] at h
            simp only [Option.some.injEq, Prod.mk.injEq] at h
            obtain ⟨rfl, rfl⟩ := h
            obtain ⟨kt, hkt, hvt, hmin, hties⟩ := ih (i + 1) jt m htail
            refine ⟨0, by omega,
              (validAt_cons rmin rmax v rest 0 q).mpr (Or.inl ⟨rfl, hsv, hb.1, hb.2⟩),
              ?_, fun k' q' _ _ => Nat.zero_le k'⟩
            intro k' q' hv
            rcases (validAt_cons rmin rmax v rest k' q').mp hv with ⟨_, hs, _, _⟩ | ⟨k'', rfl, hv'⟩
            · rw [hsv] at hs
              exact le_of_eq (Option.some.inj hs)
            · exact le_trans hqm (hmin k'' q' hv')
          · rw [if_neg hqm] at h
            simp only [Option.some.injEq, Prod.mk.injEq] at h
            obtain ⟨rfl, rfl⟩ := h
            obtain ⟨kt, hkt, hvt, hmin, hties⟩ := ih (i + 1) jt m htail
            refine ⟨kt + 1, by omega,
              (validAt_cons rmin rmax v rest (kt + 1) m).mpr (Or.inr ⟨kt, rfl, hvt⟩), ?_, ?_⟩
            · intro k' q' hv
              rcases (validAt_cons rmin rmax v rest k' q').mp hv with ⟨_, hs, _, _⟩ | ⟨k'', rfl, hv'⟩
              · rw [hsv] at hs
                obtain rfl := Option.some.inj hs
                exact le_of_lt (lt_of_not_le hqm)
              · exact hmin k'' q' hv'
            · intro k' q' hv hqd
              rcases (validAt_cons rmin rmax v rest k' q').mp hv with ⟨_, hs, _, _⟩ | ⟨k'', rfl, hv'⟩
              · exfalso
                rw [hsv] at hs
                obtain rfl := Option.some.inj hs
                exact hqm (le_of_eq hqd)
              · have := hties k'' q' hv' hqd
                omega
      · rw [if_neg hb] at h
        obtain ⟨kt, hkt, hvt, hmin, hties⟩ := ih (i + 1) j d h
        refine ⟨kt + 1, by omega,
          (validAt_cons rmin rmax v rest (kt + 1) d).mpr (Or.inr ⟨kt, rfl, hvt⟩), ?_, ?_⟩
        · intro k' q' hv
          rcases (validAt_cons rmin rmax v rest k' q').mp hv with ⟨_, hs, hb1, hb2⟩ | ⟨k'', rfl, hv'⟩
          · exfalso
            rw [hsv] at hs
            obtain rfl := Option.some.inj hs
            exact hb ⟨hb1, hb2⟩
          · exact hmin k'' q' hv'
        · intro k' q' hv hqd
          rcases (validAt_cons rmin rmax v rest k' q').mp hv with ⟨_, hs, hb1, hb2⟩ | ⟨k'', rfl, hv'⟩
          · exfalso
            rw [hsv] at hs
            obtain rfl := Option.some.inj hs
            exact hb ⟨hb1, hb2⟩
          · have := hties k'' q' hv' hqd
            omega

/-- C1: for every scan containing at least one valid sample, `findClosest`
(the behaviour of `Algorithm::getMinimalDistance`) returns a closest point
that is a valid sample of the scan, whose distance is less than or equal to
the distance of every valid sample, and whose index is the lowest index
attaining that minimal distance. -/
theorem findClosest_spec (scan : RangeScan)
    (hex : ∃ k q, ValidAt scan.range_min scan.range_max scan.ranges k q) :
    ∃ cp : ClosestPoint, findClosest scan = Except.ok cp ∧
      ValidAt scan.range_min scan.range_max scan.ranges cp.index cp.distance ∧
      (∀ j q, ValidAt scan.range_min scan.range_max scan.ranges j q →
        cp.distance ≤ q) ∧
      (∀ j q, ValidAt scan.range_min scan.range_max scan.ranges j q →
        q = cp.distance → cp.index ≤ j) := by
  rcases hres : minFrom scan.range_min scan.range_max 0 scan.ranges with _ | ⟨j, d⟩
  · exfalso
    obtain ⟨k, q, hv⟩ := hex
    exact (minFrom_eq_none_iff scan.range_min scan.range_max scan.ranges 0).mp hres k q hv
  · obtain ⟨k, hk, hvt, hmin, hties⟩ :=
      minFrom_eq_some scan.range_min scan.range_max scan.ranges 0 j d hres
    obtain rfl : j = k := by omega
    refine ⟨⟨j, d⟩, ?_, hvt, hmin, ?_⟩
    · simp [findClosest, hres]
    · intro j' q' hv' hq'
      exact hties j' q' hv' hq'

/-- Witness for C1 at a concrete scan: samples `[5, NaN, 2, 2, 9]` under
bounds `[0, 10]` contain the valid sample `2` at index 2. -/
theorem findClosest_spec_witness :
    ∃ cp : ClosestPoint, findClosest wScanClosest = Except.ok cp ∧
      ValidAt wScanClosest.range_min wScanClosest.range_max wScanClosest.ranges
        cp.index cp.distance ∧
      (∀ j q, ValidAt wScanClosest.range_min wScanClosest.range_max
        wScanClosest.ranges j q → cp.distance ≤ q) ∧
      (∀ j q, ValidAt wScanClosest.range_min wScanClosest.range_max
        wScanClosest.ranges j q → q = cp.distance → cp.index ≤ j) :=
  findClosest_spec wScanClosest ⟨2, 2, by decide⟩

/-- C2: `findClosest` (the behaviour of `Algorithm::getMinimalDistance`)
fails with `noValidRangeError` exactly when the scan is empty or contains
no valid sample; in particular the scan with samples `[NaN, inf, -1]` under
bounds `range_min = 0.1`, `range_max = 10` yields that error. -/
theorem findClosest_error_iff (scan : RangeScan) :
    (findClosest scan = Except.error AlgorithmError.noValidRangeError ↔
      ∀ k q, ¬ ValidAt scan.range_min scan.range_max scan.ranges k q) ∧
    findClosest
        { angle_min := 0, angle_increment := 1, range_min := 1 / 10,
          range_max := 10,
          ranges := [RangeValue.nan, RangeValue.posInf, RangeValue.finite (-1)],
          frame_id := "laser" } =
      Except.error AlgorithmError.noValidRangeError := by
  constructor
  · rw [← minFrom_eq_none_iff scan.range_min scan.range_max scan.ranges 0]
    rcases hres : minFrom scan.range_min scan.range_max 0 scan.ranges with _ | ⟨j, d⟩ <;>
      simp [findClosest, hres]
  · simp only [findClosest]
    norm_num [minFrom, sampleValue?]

/-- C4: for every base command, gain and bearing angle, `steer`
(the behaviour of `Algorithm::calculatePRatio`) returns the command whose
angular component is `gain * bearingAngle` and whose linear component is
the base command's linear component unchanged; in particular
`steer (linear 0.5, angular 0) 2 0.3 = (linear 0.5, angular 0.6)`. -/
theorem steer_spec :
    (∀ (old_cmd_vel : Twist) (kp angle : ℚ),
        (steer old_cmd_vel kp angle).angular = kp * angle ∧
        (steer old_cmd_vel kp angle).linear = old_cmd_vel.linear) ∧
    steer ⟨1 / 2, 0⟩ 2 (3 / 10) = ⟨1 / 2, 3 / 5⟩ := by
  refine ⟨fun o kp angle => ⟨rfl, rfl⟩, ?_⟩
  simp only [steer, Twist.mk.injEq]
  norm_num

/-- C7: for every position, frame, identifier and colour, `buildMarker`
(the behaviour of `Algorithm::createMarker`) returns a marker whose
position, frame, identifier and colour are exactly the given ones;
in particular `buildMarker 1 2 "base" 7 red` sits at position `(1, 2)` in
frame `"base"`. -/
theorem buildMarker_spec :
    (∀ (x y : ℚ) (frame_id : String) (marker_id : Int)
        (marker_color : ColorRGBA),
        (buildMarker x y frame_id marker_id marker_color).x = x ∧
        (buildMarker x y frame_id marker_id marker_color).y = y ∧
        (buildMarker x y frame_id marker_id marker_color).frame_id = frame_id ∧
        (buildMarker x y frame_id marker_id marker_color).id = marker_id ∧
        (buildMarker x y frame_id marker_id marker_color).color = marker_color) ∧
    ((buildMarker 1 2 "base" 7 ⟨1, 0, 0, 1⟩).x = 1 ∧
     (buildMarker 1 2 "base" 7 ⟨1, 0, 0, 1⟩).y = 2 ∧
     (buildMarker 1 2 "base" 7 ⟨1, 0, 0, 1⟩).frame_id = "base") :=
  ⟨fun _ _ _ _ _ => ⟨rfl, rfl, rfl, rfl, rfl⟩, rfl, rfl, rfl⟩

/-- C9: the four pure operations of `Algorithm` are deterministic and read
only their arguments: called on two objects with arbitrary, unrelated
`tf_buffer_`/`tf_listener_` states, they return equal results on equal
arguments, and no call mutates anything a later call could observe. -/
theorem pure_components_state_independent (a₁ a₂ : Algorithm) :
    (∀ scan, a₁.getMinimalDistance scan = a₂.getMinimalDistance scan) ∧
    (∀ old_scan closest_index min_val range_size,
        a₁.createLaserScanAroundMD old_scan closest_index min_val range_size =
          a₂.createLaserScanAroundMD old_scan closest_index min_val range_size) ∧
    (∀ old_cmd_vel kp angle,
        a₁.calculatePRatio old_cmd_vel kp angle =
          a₂.calculatePRatio old_cmd_vel kp angle) ∧
    (∀ x y frame_id marker_id marker_color,
        a₁.createMarker x y frame_id marker_id marker_color =
          a₂.createMarker x y frame_id marker_id marker_color) :=
  ⟨fun _ => rfl, fun _ _ _ _ => rfl, fun _ _ _ => rfl, fun _ _ _ _ _ => rfl⟩

/-- C3: for every source scan, valid center index and non-negative half
width, `windowAround` (the behaviour of `Algorithm::createLaserScanAroundMD`)
succeeds with a scan holding exactly the source samples with indices from
`centerIndex - halfWidth` to `centerIndex + halfWidth` clipped to the valid
index range, and its `angle_min` is the source `angle_min` plus the clipped
start index times `angle_increment`. -/
theorem windowAround_spec (scan : RangeScan) (centerIndex halfWidth : Int)
    (h0 : 0 ≤ centerIndex) (hlt : centerIndex < (scan.ranges.length : Int))
    (hw : 0 ≤ halfWidth) :
    ∃ out, windowAround scan centerIndex halfWidth = Except.ok out ∧
      out.angle_min = scan.angle_min +
        ((max 0 (centerIndex - halfWidth) : Int) : ℚ) * scan.angle_increment ∧
      (out.ranges.length : Int) =
        min ((scan.ranges.length : Int) - 1) (centerIndex + halfWidth) -
          max 0 (centerIndex - halfWidth) + 1 ∧
      (∀ k : ℕ, (k : Int) <
          min ((scan.ranges.length : Int) - 1) (centerIndex + halfWidth) -
            max 0 (centerIndex - halfWidth) + 1 →
        out.ranges[k]? =
          scan.ranges[(max 0 (centerIndex - halfWidth)).toNat + k]?) := by
  have hcond : ¬ (centerIndex < 0 ∨ (scan.ranges.length : Int) ≤ centerIndex) := by
    omega
  have hok : windowAround scan centerIndex halfWidth = Except.ok
      { scan with
        angle_min := scan.angle_min +
          ((max 0 (centerIndex - halfWidth) : Int) : ℚ) * scan.angle_increment,
        ranges := (scan.ranges.drop (max 0 (centerIndex - halfWidth)).toNat).take
          (min ((scan.ranges.length : Int) - 1) (centerIndex + halfWidth) -
            max 0 (centerIndex - halfWidth) + 1).toNat } := by
    simp only [windowAround]
    rw [if_neg hcond]
  refine ⟨_, hok, rfl, ?_, ?_⟩
  · dsimp only
    rw [List.length_take, List.length_drop]
    omega
  · intro k hk
    dsimp only
    rw [List.getElem?_take, if_pos (by omega), List.getElem?_drop]

/-- Witness for C3: the ten-sample scan `wScanTen` windowed around index 5
with half width 2. -/
theorem windowAround_spec_witness :
    ∃ out, windowAround wScanTen 5 2 = Except.ok out ∧
      out.angle_min = wScanTen.angle_min +
        ((max 0 ((5 : Int) - 2) : Int) : ℚ) * wScanTen.angle_increment ∧
      (out.ranges.length : Int) =
        min ((wScanTen.ranges.length : Int) - 1) (5 + 2) -
          max 0 ((5 : Int) - 2) + 1 ∧
      (∀ k : ℕ, (k : Int) <
          min ((wScanTen.ranges.length : Int) - 1) (5 + 2) -
            max 0 ((5 : Int) - 2) + 1 →
        out.ranges[k]? = wScanTen.ranges[(max 0 ((5 : Int) - 2)).toNat + k]?) :=
  windowAround_spec wScanTen 5 2 (by decide) (by decide) (by decide)

/-- C5: whenever `windowAround` (the behaviour of
`Algorithm::createLaserScanAroundMD`) succeeds, the returned scan preserves
`angle_increment`, `range_min`, `range_max` and `frame_id` of the source
scan unchanged. -/
theorem windowAround_preserves_fields (scan : RangeScan)
    (centerIndex halfWidth : Int) (out : RangeScan)
    (hok : windowAround scan centerIndex halfWidth = Except.ok out) :
    out.angle_increment = scan.angle_increment ∧
      out.range_min = scan.range_min ∧
      out.range_max = scan.range_max ∧
      out.frame_id = scan.frame_id := by
  simp only [windowAround] at hok
  by_cases hc : centerIndex < 0 ∨ (scan.ranges.length : Int) ≤ centerIndex
  · rw [if_pos hc] at hok
    exact Except.noConfusion hok
  · rw [if_neg hc] at hok
    simp only [Except.ok.injEq] at hok
    subst hok
    exact ⟨rfl, rfl, rfl, rfl⟩

/-- Witness for C5: the window of `wScanTen` around index 5 with half
width 2 preserves the four fields. -/
theorem windowAround_preserves_fields_witness :
    wWindowTen.angle_increment = wScanTen.angle_increment ∧
      wWindowTen.range_min = wScanTen.range_min ∧
      wWindowTen.range_max = wScanTen.range_max ∧
      wWindowTen.frame_id = wScanTen.frame_id :=
  windowAround_preserves_fields wScanTen 5 2 wWindowTen rfl

/-- C6: `windowAround` (the behaviour of
`Algorithm::createLaserScanAroundMD`) fails with `indexOutOfRangeError`
exactly when the center index lies outside the source's sample index range,
and succeeds, possibly with a degenerate scan, whenever the center index is
in range. -/
theorem windowAround_error_iff (scan : RangeScan) (centerIndex halfWidth : Int) :
    (windowAround scan centerIndex halfWidth =
        Except.error AlgorithmError.indexOutOfRangeError ↔
      centerIndex < 0 ∨ (scan.ranges.length : Int) ≤ centerIndex) ∧
    ((0 ≤ centerIndex ∧ centerIndex < (scan.ranges.length : Int)) →
      ∃ out, windowAround scan centerIndex halfWidth = Except.ok out) := by
  constructor
  · by_cases hc : centerIndex < 0 ∨ (scan.ranges.length : Int) ≤ centerIndex
    · refine ⟨fun _ => hc, fun _ => ?_⟩
      simp only [windowAround]
      rw [if_pos hc]
    · refine ⟨fun h => ?_, fun h => absurd h hc⟩
      simp only [windowAround] at h
      rw [if_neg hc] at h
      exact Except.noConfusion h
  · intro h
    refine ⟨{ scan with
        angle_min := scan.angle_min +
          ((max 0 (centerIndex - halfWidth) : Int) : ℚ) * scan.angle_increment,
        ranges := (scan.ranges.drop (max 0 (centerIndex - halfWidth)).toNat).take
          (min ((scan.ranges.length : Int) - 1) (centerIndex + halfWidth) -
            max 0 (centerIndex - halfWidth) + 1).toNat }, ?_⟩
    simp only [windowAround]
    rw [if_neg (by omega)]

/-- Witness for C6: index 20 is outside the ten-sample scan `wScanTen`, so
the error equivalence holds there, and any in-range index succeeds. -/
theorem windowAround_error_iff_witness :
    (windowAround wScanTen 20 2 =
        Except.error AlgorithmError.indexOutOfRangeError ↔
      (20 : Int) < 0 ∨ (wScanTen.ranges.length : Int) ≤ 20) ∧
    ((0 ≤ (20 : Int) ∧ (20 : Int) < (wScanTen.ranges.length : Int)) →
      ∃ out, windowAround wScanTen 20 2 = Except.ok out) :=
  windowAround_error_iff wScanTen 20 2

theorem Mat3.mulVec_vadd (m : Mat3) (u v : Vec3) :
    m.mulVec (Vec3.add u v) = Vec3.add (m.mulVec u) (m.mulVec v) := by
  simp only [Mat3.mulVec, Vec3.add, Vec3.mk.injEq]
  refine ⟨?_, ?_, ?_⟩ <;> ring

theorem Vec3.add_neg_cancel_right (u v : Vec3) :
    Vec3.add (Vec3.add u v) (Vec3.neg v) = u := by
  cases u
  cases v
  simp only [Vec3.add, Vec3.neg, Vec3.mk.injEq]
  refine ⟨?_, ?_, ?_⟩ <;> ring

theorem Mat3.mulVec_mulVec (m n : Mat3) (v : Vec3) :
    m.mulVec (n.mulVec v) = (m.mul n).mulVec v := by
  simp only [Mat3.mulVec, Mat3.mul, Vec3.mk.injEq]
  refine ⟨?_, ?_, ?_⟩ <;> ring

theorem Mat3.mul_assoc (m n o : Mat3) :
    (m.mul n).mul o = m.mul (n.mul o) := by
  simp only [Mat3.mul, Mat3.mk.injEq]
  refine ⟨?_, ?_, ?_, ?_, ?_, ?_, ?_, ?_, ?_⟩ <;> ring

theorem Mat3.id_mul (m : Mat3) : Mat3.id.mul m = m := by
  cases m
  simp only [Mat3.mul, Mat3.id, Mat3.mk.injEq]
  refine ⟨?_, ?_, ?_, ?_, ?_, ?_, ?_, ?_, ?_⟩ <;> ring

theorem Mat3.id_mulVec (v : Vec3) : Mat3.id.mulVec v = v := by
  cases v
  simp only [Mat3.mulVec, Mat3.id, Vec3.mk.injEq]
  refine ⟨?_, ?_, ?_⟩ <;> ring

/-- C8: for every pose and every pair of frames related by a static rigid
transform in the Frame Transform Service (the service answering the reverse
query with the inverse transform, the rotation being orthogonal),
transforming the pose from frame A to frame B and the result back from B to
A reproduces the original pose exactly. -/
theorem transform_round_trip (svc : FrameService) (t : RigidTransform)
    (A B : String) (p : Pose)
    (hAB : svc B A = some t)
    (hBA : svc A B = some t.inverse)
    (horth : t.rot.transpose.mul t.rot = Mat3.id)
    (hframe : p.frame_id = A) :
    ∃ q, transform svc p A B = Except.ok q ∧
      transform svc q B A = Except.ok p := by
  refine ⟨applyRigid t p B, ?_, ?_⟩
  · simp only [transform, hAB]
  · simp only [transform, hBA]
    obtain ⟨pos, orient, fid⟩ := p
    simp only at hframe
    subst hframe
    simp only [applyRigid, RigidTransform.inverse, Except.ok.injEq, Pose.mk.injEq]
    refine ⟨?_, ?_, ?_⟩
    · rw [Mat3.mulVec_vadd, Mat3.mulVec_mulVec, horth, Mat3.id_mulVec]
      exact Vec3.add_neg_cancel_right pos _
    · rw [← Mat3.mul_assoc, horth, Mat3.id_mul]
    · trivial

/-- Witness for C8: the concrete service `wService` holds the static
transform `wTransform` between frames "A" and "B", and the round trip
reproduces `wPose`. -/
theorem transform_round_trip_witness :
    ∃ q, transform wService wPose "A" "B" = Except.ok q ∧
      transform wService q "B" "A" = Except.ok wPose :=
  transform_round_trip wService wTransform "A" "B" wPose rfl rfl
    (by simp [wTransform, Mat3.transpose, Mat3.mul, Mat3.id, Mat3.mk.injEq])
    rfl

/-- C10: the `dest` parameter of `Algorithm::transformPose` is declared by
value, so the caller's destination pose argument is unchanged after every
call, and no transformed pose is ever delivered back through that
parameter: there are calls that succeed and compute a pose different from
`dest` inside the callee while the caller still observes `dest`. -/
theorem transformPose_dest_by_value (a : Algorithm) (src dest : Pose)
    (src_frame_id dest_frame_id : String) :
    ((transformPoseCall a src dest src_frame_id dest_frame_id).2 = dest ∧
      (transformPoseCall a src dest src_frame_id dest_frame_id).1 =
        (a.transformPose src dest src_frame_id dest_frame_id).1) ∧
    (∃ (a₀ : Algorithm) (src₀ dest₀ : Pose) (sf df : String),
      (a₀.transformPose src₀ dest₀ sf df).1 = true ∧
      (a₀.transformPose src₀ dest₀ sf df).2 ≠ dest₀ ∧
      (transformPoseCall a₀ src₀ dest₀ sf df).2 = dest₀) := by
  refine ⟨⟨rfl, rfl⟩, ⟨wService, []⟩, wPose, wPose, "A", "B", rfl, ?_, rfl⟩
  intro hcontra
  have hB : (Algorithm.transformPose ⟨wService, []⟩ wPose wPose "A" "B").2.frame_id
      = "B" := rfl
  have hBA : ("B" : String) = "A" := hB.symm.trans (congrArg Pose.frame_id hcontra)
  exact absurd hBA (by decide)

end husky_highlevel_controller
